import Mathlib

/-!
Verification of src/screen_space_sizer.hpp (class ScreenSpaceSizer).

Float values are embedded as exact rationals extended with the IEEE special
values positive infinity, negative infinity and NaN.  Finite arithmetic is
exact (binary32 rounding and overflow are not modelled); the special values
follow the IEEE rules relied on by the C++ code, in particular the
comparison-based semantics of std::min, std::max and std::clamp, which
return their first argument whenever the comparison with a NaN is false.

External collaborator types (glm vectors and matrices, ICamera, Transform,
vertex_geometry::AxisAlignedBoundingBox, draw_info::IndexedVertexPositions)
are modelled from the spec where their code is not part of this repository;
each such definition carries a doc comment saying so.
-/

set_option linter.unusedVariables false

namespace ScreenSpaceSizer

/-- Model of a C++ float: a finite exact rational or an IEEE special value. -/
inductive FP where
  | fin : ℚ → FP
  | pinf : FP
  | ninf : FP
  | nan : FP
deriving DecidableEq

namespace FP

/-- IEEE negation. -/
def neg : FP → FP
  | fin q => fin (-q)
  | pinf => ninf
  | ninf => pinf
  | nan => nan

/-- IEEE addition (finite part exact). -/
def add : FP → FP → FP
  | nan, _ => nan
  | _, nan => nan
  | fin a, fin b => fin (a + b)
  | fin _, pinf => pinf
  | fin _, ninf => ninf
  | pinf, fin _ => pinf
  | ninf, fin _ => ninf
  | pinf, pinf => pinf
  | ninf, ninf => ninf
  | pinf, ninf => nan
  | ninf, pinf => nan

/-- IEEE subtraction, a - b = a + (-b). -/
def sub (a b : FP) : FP := a.add b.neg

/-- IEEE multiplication (finite part exact). -/
def mul : FP → FP → FP
  | nan, _ => nan
  | _, nan => nan
  | fin a, fin b => fin (a * b)
  | fin a, pinf => if 0 < a then pinf else if a < 0 then ninf else nan
  | fin a, ninf => if 0 < a then ninf else if a < 0 then pinf else nan
  | pinf, fin b => if 0 < b then pinf else if b < 0 then ninf else nan
  | ninf, fin b => if 0 < b then ninf else if b < 0 then pinf else nan
  | pinf, pinf => pinf
  | pinf, ninf => ninf
  | ninf, pinf => ninf
  | ninf, ninf => pinf

/-- IEEE division (finite part exact); x/0 gives a signed infinity or NaN. -/
def div : FP → FP → FP
  | nan, _ => nan
  | _, nan => nan
  | fin a, fin b =>
      if b = 0 then (if 0 < a then pinf else if a < 0 then ninf else nan)
      else fin (a / b)
  | fin _, pinf => fin 0
  | fin _, ninf => fin 0
  | pinf, fin b => if b < 0 then ninf else pinf
  | ninf, fin b => if b < 0 then pinf else ninf
  | pinf, pinf => nan
  | pinf, ninf => nan
  | ninf, pinf => nan
  | ninf, ninf => nan

/-- IEEE strict comparison: every comparison with a NaN is false. -/
def lt : FP → FP → Bool
  | nan, _ => false
  | _, nan => false
  | fin a, fin b => decide (a < b)
  | fin _, pinf => true
  | fin _, ninf => false
  | pinf, _ => false
  | ninf, ninf => false
  | ninf, _ => true

/-- IEEE non-strict comparison: every comparison with a NaN is false. -/
def le : FP → FP → Bool
  | nan, _ => false
  | _, nan => false
  | fin a, fin b => decide (a ≤ b)
  | fin _, pinf => true
  | fin _, ninf => false
  | pinf, pinf => true
  | pinf, _ => false
  | ninf, _ => true

/-- IEEE equality test: NaN compares unequal to everything. -/
def feq : FP → FP → Bool
  | fin a, fin b => decide (a = b)
  | pinf, pinf => true
  | ninf, ninf => true
  | _, _ => false

/-- Model of std::isfinite. -/
def isFinite : FP → Bool
  | fin _ => true
  | _ => false

end FP

/-- Model of std::min(a, b), which returns b if b < a and a otherwise. -/
def stdMin (a b : FP) : FP := if FP.lt b a then b else a

/-- Model of std::max(a, b), which returns b if a < b and a otherwise. -/
def stdMax (a b : FP) : FP := if FP.lt a b then b else a

/-- Model of std::clamp(v, lo, hi). -/
def stdClamp (v lo hi : FP) : FP :=
  if FP.lt v lo then lo else if FP.lt hi v then hi else v

/-- Model of std::numeric_limits of float, max(): exact value of FLT_MAX. -/
def fltMax : FP := .fin (2 ^ 128 - 2 ^ 104)

/-- Model of std::numeric_limits of float, lowest(): exact value of -FLT_MAX. -/
def fltLowest : FP := .fin (-(2 ^ 128 - 2 ^ 104))

/-- Model of glm::vec2. Modelled from the spec: glm is an external library. -/
structure Vec2 where
  x : FP
  y : FP
  deriving DecidableEq

/-- Model of glm::vec3. Modelled from the spec: glm is an external library. -/
structure Vec3 where
  x : FP
  y : FP
  z : FP
  deriving DecidableEq

/-- Model of glm::vec4. Modelled from the spec: glm is an external library. -/
structure Vec4 where
  x : FP
  y : FP
  z : FP
  w : FP
  deriving DecidableEq

/-- Componentwise vec4 * scalar, as in glm. -/
def Vec4.scale (v : Vec4) (s : FP) : Vec4 :=
  ⟨v.x.mul s, v.y.mul s, v.z.mul s, v.w.mul s⟩

/-- Componentwise vec4 + vec4, as in glm. -/
def Vec4.add (a b : Vec4) : Vec4 :=
  ⟨a.x.add b.x, a.y.add b.y, a.z.add b.z, a.w.add b.w⟩

/-- Componentwise vec3 * scalar, as in glm. -/
def Vec3.scale (v : Vec3) (s : FP) : Vec3 :=
  ⟨v.x.mul s, v.y.mul s, v.z.mul s⟩

/-- Componentwise vec3 + vec3, as in glm. -/
def Vec3.add (a b : Vec3) : Vec3 :=
  ⟨a.x.add b.x, a.y.add b.y, a.z.add b.z⟩

/-- Model of the glm::vec3(vec4) truncating constructor. -/
def vec3of (v : Vec4) : Vec3 := ⟨v.x, v.y, v.z⟩

/-- Model of glm::mat4, column major: c0 to c3 are the four columns.
Modelled from the spec: glm is an external library. -/
structure Mat4 where
  c0 : Vec4
  c1 : Vec4
  c2 : Vec4
  c3 : Vec4
  deriving DecidableEq

/-- Matrix times vector, as in glm: the linear combination of the columns
weighted by the vector components. -/
def Mat4.mulVec (m : Mat4) (v : Vec4) : Vec4 :=
  (((m.c0.scale v.x).add (m.c1.scale v.y)).add (m.c2.scale v.z)).add (m.c3.scale v.w)

/-- Matrix times matrix, as in glm: column k of the product is the left
matrix applied to column k of the right matrix. -/
def Mat4.mul (a b : Mat4) : Mat4 :=
  ⟨a.mulVec b.c0, a.mulVec b.c1, a.mulVec b.c2, a.mulVec b.c3⟩

/-- The identity 4x4 matrix. -/
def matId : Mat4 :=
  ⟨⟨.fin 1, .fin 0, .fin 0, .fin 0⟩, ⟨.fin 0, .fin 1, .fin 0, .fin 0⟩,
   ⟨.fin 0, .fin 0, .fin 1, .fin 0⟩, ⟨.fin 0, .fin 0, .fin 0, .fin 1⟩⟩

/-- Model of the ICamera collaborator. Modelled from the spec: an external
entity exposing a view matrix and a projection matrix, read only. -/
structure Camera where
  view : Mat4
  proj : Mat4
  deriving DecidableEq

/-- Accessor get_view_matrix of the camera. -/
def Camera.get_view_matrix (c : Camera) : Mat4 := c.view

/-- Accessor get_projection_matrix of the camera. -/
def Camera.get_projection_matrix (c : Camera) : Mat4 := c.proj

/-- Model of the Transform collaborator. Modelled from the spec: an opaque
external entity exposing a 4x4 local to world matrix. -/
structure Transform where
  mat : Mat4
  deriving DecidableEq

/-- Accessor get_transform_matrix of the transform. -/
def Transform.get_transform_matrix (t : Transform) : Mat4 := t.mat

/-- Modelled from the spec: a default constructed Transform carries the
identity matrix (spec 4.4 emits the quad with an identity transform). -/
def defaultTransform : Transform := ⟨matId⟩

/-- Model of vertex_geometry::AxisAlignedBoundingBox. Modelled from the
spec: an external type holding min and max corners of an axis aligned box. -/
structure AxisAlignedBoundingBox where
  min : Vec3
  max : Vec3
  deriving DecidableEq

/-- Modelled from the spec: get_corners returns the 8 min and max corner
combinations in a stable implementation defined order. -/
def AxisAlignedBoundingBox.get_corners (b : AxisAlignedBoundingBox) : List Vec3 :=
  [⟨b.min.x, b.min.y, b.min.z⟩, ⟨b.max.x, b.min.y, b.min.z⟩,
   ⟨b.min.x, b.max.y, b.min.z⟩, ⟨b.max.x, b.max.y, b.min.z⟩,
   ⟨b.min.x, b.min.y, b.max.z⟩, ⟨b.max.x, b.min.y, b.max.z⟩,
   ⟨b.min.x, b.max.y, b.max.z⟩, ⟨b.max.x, b.max.y, b.max.z⟩]

/-- Modelled from the spec: the AxisAlignedBoundingBox constructor taking a
point sequence produces the componentwise min and max over the points. -/
def aabbFromPoints (ps : List Vec3) : AxisAlignedBoundingBox :=
  ⟨ps.foldl (fun m p => ⟨stdMin m.x p.x, stdMin m.y p.y, stdMin m.z p.z⟩)
      ⟨fltMax, fltMax, fltMax⟩,
   ps.foldl (fun m p => ⟨stdMax m.x p.x, stdMax m.y p.y, stdMax m.z p.z⟩)
      ⟨fltLowest, fltLowest, fltLowest⟩⟩

/-- Model of draw_info::IndexedVertexPositions. Modelled from the spec: the
external mesh output type with positions, indices and a transform. -/
structure IndexedVertexPositions where
  xyz_positions : List Vec3
  indices : List Nat
  transform : Transform
  deriving DecidableEq

/-- The value initialised IndexedVertexPositions returned for an empty
object: empty positions, empty indices, default transform. -/
def emptyIVP : IndexedVertexPositions := ⟨[], [], defaultTransform⟩

/-- Model of an IVPLike input object: a local space point list plus a
transform (the two members make_screen_space_ivp reads). -/
structure PointsObj where
  xyz_positions : List Vec3
  transform : Transform
  deriving DecidableEq

/-- The three way size classification (lines 9). -/
inductive Size where
  | Large
  | Medium
  | Small
deriving DecidableEq

/-- Lines 124-142: map the 8 box corners to world space.  The transform
matrix is split into its three basis columns and the translation column and
each corner c is mapped to col0*c.x + col1*c.y + col2*c.z + col3. -/
def get_aabb_corners_world (box : AxisAlignedBoundingBox) (t : Transform) : List Vec3 :=
  let model := t.get_transform_matrix
  let col0 := vec3of model.c0
  let col1 := vec3of model.c1
  let col2 := vec3of model.c2
  let col3 := vec3of model.c3
  (box.get_corners).map (fun c =>
    (((col0.scale c.x).add (col1.scale c.y)).add (col2.scale c.z)).add col3)

/-- The clip space position proj * view * vec4(world_pos, 1), computed (as
the C++ does, left associated) as the matrix product applied to the vector. -/
def clip_of (cam : Camera) (p : Vec3) : Vec4 :=
  (cam.get_projection_matrix.mul cam.get_view_matrix).mulVec ⟨p.x, p.y, p.z, .fin 1⟩

/-- Lines 145-156: project a world point to NDC, with the clip.w == 0 guard
returning (0, 0) instead of dividing. -/
def project_to_ndc (cam : Camera) (world_pos : Vec3) : Vec2 :=
  let clip := clip_of cam world_pos
  if clip.w.feq (.fin 0) then ⟨.fin 0, .fin 0⟩
  else ⟨clip.x.div clip.w, clip.y.div clip.w⟩

/-- The float literal 0.5f, exact. -/
def half : FP := .fin (1 / 2)

/-- Lines 158-171: project a world point to pixel coordinates; no guard on
clip.w, then screen.x = (ndc.x*0.5+0.5)*width and
screen.y = (1 - (ndc.y*0.5+0.5))*height. -/
def project_to_screen (cam : Camera) (sw sh : ℕ) (world_pos : Vec3) : Vec2 :=
  let clip := clip_of cam world_pos
  let nx := clip.x.div clip.w
  let ny := clip.y.div clip.w
  ⟨((nx.mul half).add half).mul (.fin (sw : ℚ)),
   ((FP.fin 1).sub ((ny.mul half).add half)).mul (.fin (sh : ℚ))⟩

/-- Lines 173-186: the ephemeral 2D rectangle with min and max corner. -/
structure AABB2D where
  min : Vec2
  max : Vec2
  deriving DecidableEq

/-- Line 177: width() = std::max(0.0f, max.x - min.x). -/
def AABB2D.width (r : AABB2D) : FP := stdMax (.fin 0) (r.max.x.sub r.min.x)

/-- Line 179: height() = std::max(0.0f, max.y - min.y). -/
def AABB2D.height (r : AABB2D) : FP := stdMax (.fin 0) (r.max.y.sub r.min.y)

/-- Line 181: area() = width() * height(). -/
def AABB2D.area (r : AABB2D) : FP := r.width.mul r.height

/-- Line 183: min_dimension() = std::min(width(), height()). -/
def AABB2D.min_dimension (r : AABB2D) : FP := stdMin r.width r.height

/-- Line 185: max_dimension() = std::max(width(), height()). -/
def AABB2D.max_dimension (r : AABB2D) : FP := stdMax r.width r.height

/-- The running min and max values of the corner reductions, in declaration
order of lines 76-79 and 192-195. -/
structure Bounds where
  min_x : FP
  min_y : FP
  max_x : FP
  max_y : FP
  deriving DecidableEq

/-- The sentinel initial reduction state: mins at FLT_MAX, maxes at the
lowest float. -/
def sentinelBounds : Bounds := ⟨fltMax, fltMax, fltLowest, fltLowest⟩

/-- One iteration of the loop of lines 197-204: fold the projected screen
position of a corner into the running min and max, with no finiteness test. -/
def pixel_step (cam : Camera) (sw sh : ℕ) (b : Bounds) (c : Vec3) : Bounds :=
  let screen := project_to_screen cam sw sh c
  ⟨stdMin b.min_x screen.x, stdMin b.min_y screen.y,
   stdMax b.max_x screen.x, stdMax b.max_y screen.y⟩

/-- Lines 188-213: reduce the 8 projected world corners to a pixel space
rectangle, clamping the four reduced values to the viewport once at the end. -/
def compute_pixel_bounding_box (cam : Camera) (sw sh : ℕ)
    (box : AxisAlignedBoundingBox) (t : Transform) : AABB2D :=
  let b := (get_aabb_corners_world box t).foldl (pixel_step cam sw sh) sentinelBounds
  ⟨⟨stdClamp b.min_x (.fin 0) (.fin (sw : ℚ)), stdClamp b.min_y (.fin 0) (.fin (sh : ℚ))⟩,
   ⟨stdClamp b.max_x (.fin 0) (.fin (sw : ℚ)), stdClamp b.max_y (.fin 0) (.fin (sh : ℚ))⟩⟩

/-- Lines 215-221: width times height of the pixel bounding box, each first
clamped below by zero. -/
def compute_screen_pixel_area (cam : Camera) (sw sh : ℕ)
    (box : AxisAlignedBoundingBox) (t : Transform) : FP :=
  let bb := compute_pixel_bounding_box cam sw sh box t
  (stdMax (.fin 0) (bb.max.x.sub bb.min.x)).mul (stdMax (.fin 0) (bb.max.y.sub bb.min.y))

/-- Lines 223-228: pixel area divided by the whole screen area, times 100. -/
def compute_screen_pixel_area_percentage (cam : Camera) (sw sh : ℕ)
    (box : AxisAlignedBoundingBox) (t : Transform) : FP :=
  ((compute_screen_pixel_area cam sw sh box t).div (.fin ((sw : ℚ) * (sh : ℚ)))).mul (.fin 100)

/-- Lines 16-33: classify the pixel space min dimension against the
thresholds 10 and 5.  The third C++ argument two_dimensional_on_x_y is kept
and, as in the source, never read. -/
def get_screen_size (cam : Camera) (sw sh : ℕ) (aabb : AxisAlignedBoundingBox)
    (t : Transform) (two_dimensional_on_x_y : Bool) : Size :=
  if FP.lt (.fin 10) (compute_pixel_bounding_box cam sw sh aabb t).min_dimension then .Large
  else if FP.lt (.fin 5) (compute_pixel_bounding_box cam sw sh aabb t).min_dimension then .Medium
  else .Small

/-- Lines 48-65: true iff the pixel space min dimension is below one pixel.
The third C++ argument two_dimensional_on_x_y is kept and never read. -/
def smaller_than_pixel (cam : Camera) (sw sh : ℕ) (aabb : AxisAlignedBoundingBox)
    (t : Transform) (two_dimensional_on_x_y : Bool) : Bool :=
  FP.lt (compute_pixel_bounding_box cam sw sh aabb t).min_dimension (.fin 1)

/-- The aspect ratio of line 81: float(width) / float(height). -/
def aspect_of (sw sh : ℕ) : FP := (FP.fin (sw : ℚ)).div (.fin (sh : ℚ))

/-- One iteration of the loop of lines 84-96: project a corner to NDC,
scale x by the aspect ratio, skip the corner if either coordinate is not
finite, otherwise fold it into the running min and max. -/
def ndc_step (cam : Camera) (aspect : FP) (b : Bounds) (corner : Vec3) : Bounds :=
  let ndc := project_to_ndc cam corner
  let nx := ndc.x.mul aspect
  if !nx.isFinite || !ndc.y.isFinite then b
  else ⟨stdMin b.min_x nx, stdMin b.min_y ndc.y, stdMax b.max_x nx, stdMax b.max_y ndc.y⟩

/-- Lines 98-115: clamp the reduced bounds (each from one side only, as the
source does) and emit the four NDC quad vertices, the fixed index list and
a default transform. -/
def quad_from_bounds (sw sh : ℕ) (b : Bounds) : IndexedVertexPositions :=
  ⟨[⟨stdMax b.min_x (aspect_of sw sh).neg, stdMax b.min_y (.fin (-1)), .fin 0⟩,
    ⟨stdMin b.max_x (aspect_of sw sh), stdMax b.min_y (.fin (-1)), .fin 0⟩,
    ⟨stdMin b.max_x (aspect_of sw sh), stdMin b.max_y (.fin 1), .fin 0⟩,
    ⟨stdMax b.min_x (aspect_of sw sh).neg, stdMin b.max_y (.fin 1), .fin 0⟩],
   [0, 1, 2, 2, 3, 0], defaultTransform⟩

/-- Lines 67-116: the screen space quad builder.  Empty input returns the
value initialised result at once; otherwise the box is built from the
points, its corners are transformed, projected, reduced and clamped. -/
def make_screen_space_ivp (cam : Camera) (sw sh : ℕ) (obj : PointsObj) :
    IndexedVertexPositions :=
  if obj.xyz_positions.isEmpty then emptyIVP
  else
    quad_from_bounds sw sh
      ((get_aabb_corners_world (aabbFromPoints obj.xyz_positions) obj.transform).foldl
        (ndc_step cam (aspect_of sw sh)) sentinelBounds)

/-- Follows the spec wording for claim C2, for comparison with the code:
the same pixel space reduction but with every corner whose projected screen
coordinates are not both finite skipped instead of folded in. -/
def pixel_step_skipping (cam : Camera) (sw sh : ℕ) (b : Bounds) (c : Vec3) : Bounds :=
  let screen := project_to_screen cam sw sh c
  if !screen.x.isFinite || !screen.y.isFinite then b
  else ⟨stdMin b.min_x screen.x, stdMin b.min_y screen.y,
        stdMax b.max_x screen.x, stdMax b.max_y screen.y⟩

/-- Follows the spec wording for claim C2: compute_pixel_bounding_box with
non finite corners excluded from the reduction. -/
def compute_pixel_bounding_box_skipping (cam : Camera) (sw sh : ℕ)
    (box : AxisAlignedBoundingBox) (t : Transform) : AABB2D :=
  let b := (get_aabb_corners_world box t).foldl (pixel_step_skipping cam sw sh) sentinelBounds
  ⟨⟨stdClamp b.min_x (.fin 0) (.fin (sw : ℚ)), stdClamp b.min_y (.fin 0) (.fin (sh : ℚ))⟩,
   ⟨stdClamp b.max_x (.fin 0) (.fin (sw : ℚ)), stdClamp b.max_y (.fin 0) (.fin (sh : ℚ))⟩⟩

/-- A camera with identity view and projection matrices. -/
def camI : Camera := ⟨matId, matId⟩

/-- A projection matrix whose bottom row is zero, so every clip space w is 0. -/
def projW0 : Mat4 :=
  ⟨⟨.fin 1, .fin 0, .fin 0, .fin 0⟩, ⟨.fin 0, .fin 1, .fin 0, .fin 0⟩,
   ⟨.fin 0, .fin 0, .fin 1, .fin 0⟩, ⟨.fin 0, .fin 0, .fin 0, .fin 0⟩⟩

/-- Identity view together with the w killing projection. -/
def camW0 : Camera := ⟨matId, projW0⟩

/-- A vec4 of NaN values. -/
def nanVec4 : Vec4 := ⟨.nan, .nan, .nan, .nan⟩

/-- A matrix of NaN entries. -/
def matNaN : Mat4 := ⟨nanVec4, nanVec4, nanVec4, nanVec4⟩

/-- A camera whose view matrix is entirely NaN: every projection is NaN. -/
def camNaN : Camera := ⟨matNaN, matId⟩

/-- The identity transform. -/
def tId : Transform := defaultTransform

/-- The degenerate box holding only the origin. -/
def boxPt0 : AxisAlignedBoundingBox := ⟨⟨.fin 0, .fin 0, .fin 0⟩, ⟨.fin 0, .fin 0, .fin 0⟩⟩

/-- The degenerate box holding only the point (1, 1, 1). -/
def box111 : AxisAlignedBoundingBox := ⟨⟨.fin 1, .fin 1, .fin 1⟩, ⟨.fin 1, .fin 1, .fin 1⟩⟩

/-- A non degenerate box used to exercise the corner transformer. -/
def boxC8 : AxisAlignedBoundingBox := ⟨⟨.fin (-1), .fin 2, .fin 3⟩, ⟨.fin 4, .fin 5, .fin 7⟩⟩

/-- A sheared, non uniformly scaled affine matrix with bottom row (0,0,0,1). -/
def matShear : Mat4 :=
  ⟨⟨.fin 1, .fin 0, .fin 0, .fin 0⟩, ⟨.fin 1, .fin 1, .fin 0, .fin 0⟩,
   ⟨.fin 0, .fin 0, .fin 2, .fin 0⟩, ⟨.fin 3, .fin 4, .fin 5, .fin 1⟩⟩

/-- The sheared transform. -/
def tShear : Transform := ⟨matShear⟩

/-- A sample world point. -/
def p345 : Vec3 := ⟨.fin 3, .fin 4, .fin 5⟩

/-- An object whose single point projects right of the viewport. -/
def objC7 : PointsObj := ⟨[⟨.fin 2, .fin 0, .fin 0⟩], tId⟩

/-- A one point object at the origin. -/
def objC3 : PointsObj := ⟨[⟨.fin 0, .fin 0, .fin 0⟩], tId⟩

/-- FP multiplication by the float literal 1.0f is the identity, also on
the special values. -/
theorem FP.mul_one (a : FP) : a.mul (.fin 1) = a := by
  cases a <;> norm_num [FP.mul]

/-- A comparison with NaN on the right is false. -/
theorem lt_nan_false (a : FP) : FP.lt a FP.nan = false := by
  cases a <;> rfl

/-- A comparison with NaN on the left is false. -/
theorem lt_nan_left (b : FP) : FP.lt FP.nan b = false := by
  cases b <;> rfl

/-- A comparison with positive infinity on the left is false. -/
theorem lt_pinf_left (b : FP) : FP.lt FP.pinf b = false := by
  cases b <;> rfl

/-- std::max never turns a non NaN accumulator into NaN. -/
theorem stdMax_ne_nan (a b : FP) (ha : a ≠ FP.nan) : stdMax a b ≠ FP.nan := by
  unfold stdMax
  split
  · next h =>
      cases b with
      | nan => rw [lt_nan_false] at h; exact absurd h (by simp)
      | fin q => simp
      | pinf => simp
      | ninf => simp
  · exact ha

/-- A positive infinity accumulator is absorbing for std::max. -/
theorem stdMax_pinf_left (b : FP) : stdMax FP.pinf b = FP.pinf := by
  simp [stdMax, lt_pinf_left]

/-- Folding positive infinity into a non NaN std::max accumulator yields
positive infinity. -/
theorem stdMax_pinf_right (a : FP) (ha : a ≠ FP.nan) : stdMax a FP.pinf = FP.pinf := by
  cases a with
  | nan => exact absurd rfl ha
  | fin q => simp [stdMax, FP.lt]
  | pinf => simp [stdMax, FP.lt]
  | ninf => simp [stdMax, FP.lt]

/-- The running max of the pixel reduction never becomes NaN. -/
theorem foldl_pixel_ne_nan (cam : Camera) (sw sh : ℕ) (l : List Vec3) (s : Bounds)
    (hs : s.max_x ≠ FP.nan) :
    (l.foldl (pixel_step cam sw sh) s).max_x ≠ FP.nan := by
  induction l generalizing s with
  | nil => exact hs
  | cons a l ih => exact ih _ (stdMax_ne_nan _ _ hs)

/-- Once the running max of the pixel reduction is positive infinity it
stays positive infinity. -/
theorem foldl_pixel_pinf (cam : Camera) (sw sh : ℕ) (l : List Vec3) (s : Bounds)
    (hs : s.max_x = FP.pinf) :
    (l.foldl (pixel_step cam sw sh) s).max_x = FP.pinf := by
  induction l generalizing s with
  | nil => exact hs
  | cons a l ih =>
      refine ih _ ?_
      show stdMax s.max_x (project_to_screen cam sw sh a).x = FP.pinf
      rw [hs]; exact stdMax_pinf_left _

/-- If some corner in the list projects to a positive infinite screen x,
the pixel reduction max ends at positive infinity: the corner is folded
into the reduction, not excluded. -/
theorem foldl_pixel_mem_pinf (cam : Camera) (sw sh : ℕ) (l : List Vec3) (s : Bounds)
    (hs : s.max_x ≠ FP.nan)
    (h : ∃ c ∈ l, (project_to_screen cam sw sh c).x = FP.pinf) :
    (l.foldl (pixel_step cam sw sh) s).max_x = FP.pinf := by
  induction l generalizing s with
  | nil =>
      obtain ⟨c, hc, _⟩ := h
      exact absurd hc (List.not_mem_nil c)
  | cons a l ih =>
      obtain ⟨c, hc, hcx⟩ := h
      rcases List.mem_cons.mp hc with rfl | h2
      · refine foldl_pixel_pinf cam sw sh l _ ?_
        show stdMax s.max_x (project_to_screen cam sw sh c).x = FP.pinf
        rw [hcx]; exact stdMax_pinf_right _ hs
      · exact ih _ (stdMax_ne_nan _ _ hs) ⟨c, h2, hcx⟩

/-- A float below one is neither above ten nor above five. -/
theorem lt_one_classify (m : FP) (h : FP.lt m (.fin 1) = true) :
    FP.lt (.fin 10) m = false ∧ FP.lt (.fin 5) m = false := by
  cases m with
  | fin q =>
      simp only [FP.lt, decide_eq_true_eq] at h
      simp only [FP.lt, decide_eq_false_iff_not]
      constructor <;> linarith
  | pinf => simp [FP.lt] at h
  | ninf => exact ⟨rfl, rfl⟩
  | nan => simp [FP.lt] at h

/-- std::max(0, s) is never below zero, for any s including NaN and the
infinities. -/
theorem le_zero_stdMax (s : FP) : FP.le (.fin 0) (stdMax (.fin 0) s) = true := by
  cases s with
  | fin q =>
      by_cases h : (0 : ℚ) < q
      · simp [stdMax, FP.lt, FP.le, h, le_of_lt h]
      · simp [stdMax, FP.lt, FP.le, h]
  | pinf => simp [stdMax, FP.lt, FP.le]
  | ninf => simp [stdMax, FP.lt, FP.le]
  | nan => simp [stdMax, FP.lt, FP.le]

/-- When every corner of the list is skipped by the finiteness test, the
NDC reduction leaves its accumulator unchanged. -/
theorem foldl_ndc_skip (cam : Camera) (aspect : FP) (l : List Vec3) (s : Bounds)
    (h : l.all (fun c => !((project_to_ndc cam c).x.mul aspect).isFinite
        || !(project_to_ndc cam c).y.isFinite) = true) :
    l.foldl (ndc_step cam aspect) s = s := by
  induction l generalizing s with
  | nil => rfl
  | cons a l ih =>
      rw [List.all_cons, Bool.and_eq_true] at h
      have hstep : ndc_step cam aspect s a = s := by
        simp only [ndc_step]
        rw [h.1]
        simp
      rw [List.foldl_cons, hstep]
      exact ih s h.2

/-- std::max(FLT_MAX, fin q) = FLT_MAX whenever q is not positive. -/
theorem stdMax_fltMax_fin_nonpos (q : ℚ) (hq : q ≤ 0) : stdMax fltMax (.fin q) = fltMax := by
  have hlt : FP.lt fltMax (.fin q) = false := by
    simp only [fltMax, FP.lt, decide_eq_false_iff_not]
    intro hcon
    have h1 : (0 : ℚ) < 2 ^ 128 - 2 ^ 104 := by norm_num
    linarith
  simp [stdMax, hlt]

/-- std::max(FLT_MAX, NaN) = FLT_MAX. -/
theorem stdMax_fltMax_nan : stdMax fltMax FP.nan = fltMax := by
  simp [stdMax, fltMax, FP.lt]

/-- std::max(FLT_MAX, negative infinity) = FLT_MAX. -/
theorem stdMax_fltMax_ninf : stdMax fltMax FP.ninf = fltMax := by
  simp [stdMax, fltMax, FP.lt]

/-- std::min(FLT_LOWEST, fin q) = FLT_LOWEST whenever q is not negative. -/
theorem stdMin_fltLowest_fin_nonneg (q : ℚ) (hq : 0 ≤ q) :
    stdMin fltLowest (.fin q) = fltLowest := by
  have hlt : FP.lt (.fin q) fltLowest = false := by
    simp only [fltLowest, FP.lt, decide_eq_false_iff_not]
    intro hcon
    have h1 : (0 : ℚ) < 2 ^ 128 - 2 ^ 104 := by norm_num
    linarith
  simp [stdMin, hlt]

/-- std::min(FLT_LOWEST, NaN) = FLT_LOWEST. -/
theorem stdMin_fltLowest_nan : stdMin fltLowest FP.nan = fltLowest := by
  simp [stdMin, lt_nan_left]

/-- std::min(FLT_LOWEST, positive infinity) = FLT_LOWEST. -/
theorem stdMin_fltLowest_pinf : stdMin fltLowest FP.pinf = fltLowest := by
  simp [stdMin, fltLowest, lt_pinf_left]

/-- The negated aspect ratio is NaN, negative infinity, or a non positive
finite value. -/
theorem neg_aspect_cases (sw sh : ℕ) :
    (aspect_of sw sh).neg = FP.nan ∨ (aspect_of sw sh).neg = FP.ninf ∨
      ∃ q : ℚ, (aspect_of sw sh).neg = FP.fin q ∧ q ≤ 0 := by
  unfold aspect_of
  by_cases h : ((sh : ℚ)) = 0
  · by_cases hw : (0 : ℚ) < (sw : ℚ)
    · right; left; simp [FP.div, h, hw, FP.neg]
    · have hw0 : ((sw : ℚ)) = 0 := le_antisymm (not_lt.mp hw) (by positivity)
      left; simp [FP.div, h, hw0, FP.neg]
  · right; right
    refine ⟨-((sw : ℚ) / (sh : ℚ)), ?_, ?_⟩
    · simp [FP.div, h, FP.neg]
    · have hq : (0 : ℚ) ≤ (sw : ℚ) / (sh : ℚ) := by positivity
      linarith

/-- The aspect ratio is NaN, positive infinity, or a non negative finite
value. -/
theorem aspect_cases (sw sh : ℕ) :
    aspect_of sw sh = FP.nan ∨ aspect_of sw sh = FP.pinf ∨
      ∃ q : ℚ, aspect_of sw sh = FP.fin q ∧ 0 ≤ q := by
  unfold aspect_of
  by_cases h : ((sh : ℚ)) = 0
  · by_cases hw : (0 : ℚ) < (sw : ℚ)
    · right; left; simp [FP.div, h, hw]
    · have hw0 : ((sw : ℚ)) = 0 := le_antisymm (not_lt.mp hw) (by positivity)
      left; simp [FP.div, h, hw0]
  · right; right
    refine ⟨(sw : ℚ) / (sh : ℚ), ?_, ?_⟩
    · simp [FP.div, h]
    · positivity

/-- Clamping the sentinel min by the negated aspect keeps FLT_MAX. -/
theorem stdMax_fltMax_neg_aspect (sw sh : ℕ) :
    stdMax fltMax (aspect_of sw sh).neg = fltMax := by
  rcases neg_aspect_cases sw sh with h | h | ⟨q, hq, hq0⟩
  · rw [h]; exact stdMax_fltMax_nan
  · rw [h]; exact stdMax_fltMax_ninf
  · rw [hq]; exact stdMax_fltMax_fin_nonpos q hq0

/-- Clamping the sentinel max by the aspect keeps FLT_LOWEST. -/
theorem stdMin_fltLowest_aspect (sw sh : ℕ) :
    stdMin fltLowest (aspect_of sw sh) = fltLowest := by
  rcases aspect_cases sw sh with h | h | ⟨q, hq, hq0⟩
  · rw [h]; exact stdMin_fltLowest_nan
  · rw [h]; exact stdMin_fltLowest_pinf
  · rw [hq]; exact stdMin_fltLowest_fin_nonneg q hq0

/-- With the sentinel bounds the quad builder emits the FLT_MAX and
FLT_LOWEST sentinel values themselves as vertex coordinates. -/
theorem quad_from_bounds_sentinel (sw sh : ℕ) :
    quad_from_bounds sw sh sentinelBounds =
      ⟨[⟨fltMax, fltMax, .fin 0⟩, ⟨fltLowest, fltMax, .fin 0⟩,
        ⟨fltLowest, fltLowest, .fin 0⟩, ⟨fltMax, fltLowest, .fin 0⟩],
       [0, 1, 2, 2, 3, 0], defaultTransform⟩ := by
  simp [quad_from_bounds, sentinelBounds, stdMax_fltMax_neg_aspect, stdMin_fltLowest_aspect,
    stdMax_fltMax_fin_nonpos (-1 : ℚ) (by norm_num), stdMin_fltLowest_fin_nonneg 1 (by norm_num)]

/-- The per corner affine formula of lines 136-139 equals the truncation of
the homogeneous product model * vec4(c, 1). -/
theorem affine_point_eq (m : Mat4) (c : Vec3) :
    ((((vec3of m.c0).scale c.x).add ((vec3of m.c1).scale c.y)).add
        ((vec3of m.c2).scale c.z)).add (vec3of m.c3) =
      vec3of (m.mulVec ⟨c.x, c.y, c.z, .fin 1⟩) := by
  simp [vec3of, Vec3.scale, Vec3.add, Vec4.scale, Vec4.add, Mat4.mulVec, FP.mul_one]

/-- The bottom row of a column major matrix. -/
def bottom_row (m : Mat4) : Vec4 := ⟨m.c0.w, m.c1.w, m.c2.w, m.c3.w⟩

/-- C1: for every box and transform, get_screen_size classifies the min
dimension m of the projected, clamped pixel rectangle (the minimum of the
rectangle width and height) as Large when m > 10, else Medium when m > 5,
else Small. -/
theorem c1_threshold_classification (cam : Camera) (sw sh : ℕ)
    (box : AxisAlignedBoundingBox) (t : Transform) (b : Bool) :
    get_screen_size cam sw sh box t b =
      (if FP.lt (.fin 10) (stdMin (compute_pixel_bounding_box cam sw sh box t).width
          (compute_pixel_bounding_box cam sw sh box t).height) then Size.Large
       else if FP.lt (.fin 5) (stdMin (compute_pixel_bounding_box cam sw sh box t).width
          (compute_pixel_bounding_box cam sw sh box t).height) then Size.Medium
       else Size.Small) := rfl

/-- C4: project_to_ndc returns (0, 0) exactly when the clip space w of the
point under the camera matrices equals 0, and the perspective division
clip.x/clip.w, clip.y/clip.w otherwise; it is total, with no division in
the zero w case. -/
theorem c4_ndc_zero_w_guard (cam : Camera) (p : Vec3) :
    ((clip_of cam p).w.feq (.fin 0) = true → project_to_ndc cam p = ⟨.fin 0, .fin 0⟩) ∧
    ((clip_of cam p).w.feq (.fin 0) = false →
      project_to_ndc cam p =
        ⟨(clip_of cam p).x.div (clip_of cam p).w, (clip_of cam p).y.div (clip_of cam p).w⟩) := by
  constructor <;> intro h <;> simp [project_to_ndc, h]

/-- C4 witness: a camera whose projection kills w hits the (0, 0) fallback,
and the identity camera hits the division branch. -/
theorem c4_ndc_zero_w_guard_witness :
    project_to_ndc camW0 p345 = ⟨.fin 0, .fin 0⟩ ∧
    project_to_ndc camI p345 =
      ⟨(clip_of camI p345).x.div (clip_of camI p345).w,
       (clip_of camI p345).y.div (clip_of camI p345).w⟩ :=
  ⟨(c4_ndc_zero_w_guard camW0 p345).1 (by
      norm_num [clip_of, Camera.get_view_matrix, Camera.get_projection_matrix, Mat4.mul,
        Mat4.mulVec, Vec4.scale, Vec4.add, FP.mul, FP.add, FP.feq, camW0, projW0, matId, p345]),
   (c4_ndc_zero_w_guard camI p345).2 (by
      norm_num [clip_of, Camera.get_view_matrix, Camera.get_projection_matrix, Mat4.mul,
        Mat4.mulVec, Vec4.scale, Vec4.add, FP.mul, FP.add, FP.feq, camI, matId, p345])⟩

/-- C5: an object with an empty point set makes make_screen_space_ivp
return the empty quad at once; the result is the constant emptyIVP for
every camera, viewport and transform, so no box construction, corner
transform or projection influences it. -/
theorem c5_empty_input_short_circuit (cam : Camera) (sw sh : ℕ) (t : Transform) :
    make_screen_space_ivp cam sw sh ⟨[], t⟩ = emptyIVP := rfl

/-- C6: whenever smaller_than_pixel holds (pixel min dimension below one),
get_screen_size on the same box and transform returns Small, hence neither
Large nor Medium, under the matching thresholds 10 and 5. -/
theorem c6_smaller_than_pixel_small (cam : Camera) (sw sh : ℕ)
    (box : AxisAlignedBoundingBox) (t : Transform) (b1 b2 : Bool)
    (h : smaller_than_pixel cam sw sh box t b1 = true) :
    get_screen_size cam sw sh box t b2 = Size.Small := by
  have hm := lt_one_classify (compute_pixel_bounding_box cam sw sh box t).min_dimension h
  simp [get_screen_size, hm.1, hm.2]

/-- C6 witness: a degenerate box at the origin under the identity camera is
smaller than a pixel and classifies Small. -/
theorem c6_smaller_than_pixel_small_witness :
    smaller_than_pixel camI 100 100 boxPt0 tId false = true ∧
    get_screen_size camI 100 100 boxPt0 tId true = Size.Small := by
  have h : smaller_than_pixel camI 100 100 boxPt0 tId false = true := by
    norm_num [smaller_than_pixel, compute_pixel_bounding_box, pixel_step, project_to_screen,
      clip_of, Camera.get_view_matrix, Camera.get_projection_matrix, Mat4.mul, Mat4.mulVec,
      Vec4.scale, Vec4.add, vec3of, get_aabb_corners_world, Transform.get_transform_matrix,
      AxisAlignedBoundingBox.get_corners, Vec3.scale, Vec3.add, stdMin, stdMax, stdClamp,
      FP.lt, FP.mul, FP.add, FP.div, FP.sub, FP.neg, FP.feq, half, fltMax,
      fltLowest, sentinelBounds, matId, defaultTransform, camI, tId, boxPt0,
      AABB2D.min_dimension, AABB2D.width, AABB2D.height, List.foldl, List.map]
  exact ⟨h, c6_smaller_than_pixel_small camI 100 100 boxPt0 tId false true h⟩

/-- C8: for an affine transform matrix (bottom row 0, 0, 0, 1) the per
corner basis combination of the corner transformer equals the xyz part of
the homogeneous product model * vec4(corner, 1), for all 8 corners in the
corner enumeration order; the proof places no orthonormality condition on
the basis columns. -/
theorem c8_affine_equals_homogeneous (box : AxisAlignedBoundingBox) (t : Transform)
    (haff : bottom_row t.get_transform_matrix = ⟨.fin 0, .fin 0, .fin 0, .fin 1⟩) :
    get_aabb_corners_world box t =
      (box.get_corners).map (fun c =>
        vec3of ((t.get_transform_matrix).mulVec ⟨c.x, c.y, c.z, .fin 1⟩)) := by
  unfold get_aabb_corners_world
  simp only [affine_point_eq]

/-- C8 witness: the equivalence applied to a sheared, non uniformly scaled
affine matrix. -/
theorem c8_affine_equals_homogeneous_witness :
    get_aabb_corners_world boxC8 tShear =
      (boxC8.get_corners).map (fun c =>
        vec3of ((tShear.get_transform_matrix).mulVec ⟨c.x, c.y, c.z, .fin 1⟩)) :=
  c8_affine_equals_homogeneous boxC8 tShear
    (by norm_num [bottom_row, tShear, matShear, Transform.get_transform_matrix])

/-- C9: a ScreenRect never has negative width or height, each being
max(0, max - min) even for inverted corners, and the area computation is
exactly the product of those guarded width and height values. -/
theorem c9_rect_nonnegative :
    (∀ mn mx : Vec2, FP.le (.fin 0) (AABB2D.width ⟨mn, mx⟩) = true ∧
        FP.le (.fin 0) (AABB2D.height ⟨mn, mx⟩) = true) ∧
    (∀ (cam : Camera) (sw sh : ℕ) (box : AxisAlignedBoundingBox) (t : Transform),
      compute_screen_pixel_area cam sw sh box t =
        ((compute_pixel_bounding_box cam sw sh box t).width).mul
          ((compute_pixel_bounding_box cam sw sh box t).height)) :=
  ⟨fun mn mx => ⟨le_zero_stdMax _, le_zero_stdMax _⟩, fun cam sw sh box t => rfl⟩

/-- C10: the two_dimensional_on_x_y argument influences neither
get_screen_size nor smaller_than_pixel: both are constant in it. -/
theorem c10_third_argument_no_influence (cam : Camera) (sw sh : ℕ)
    (box : AxisAlignedBoundingBox) (t : Transform) (b1 b2 : Bool) :
    get_screen_size cam sw sh box t b1 = get_screen_size cam sw sh box t b2 ∧
    smaller_than_pixel cam sw sh box t b1 = smaller_than_pixel cam sw sh box t b2 :=
  ⟨rfl, rfl⟩

/-- C2 counterexample: under a projection with zero bottom row, the corner
(1, 1, 1) of the degenerate box projects to a non finite screen position,
yet the pixel bounding box of the code differs from the one that excludes
non finite corners: the corner was folded into the reduction. -/
theorem c2_counterexample_not_excluded :
    (⟨.fin 1, .fin 1, .fin 1⟩ : Vec3) ∈ get_aabb_corners_world box111 tId ∧
    (project_to_screen camW0 100 100 ⟨.fin 1, .fin 1, .fin 1⟩).x.isFinite = false ∧
    compute_pixel_bounding_box camW0 100 100 box111 tId ≠
      compute_pixel_bounding_box_skipping camW0 100 100 box111 tId := by
  refine ⟨?_, ?_, ?_⟩ <;>
    norm_num [compute_pixel_bounding_box, compute_pixel_bounding_box_skipping, pixel_step,
      pixel_step_skipping, project_to_screen, clip_of, Camera.get_view_matrix,
      Camera.get_projection_matrix, Mat4.mul, Mat4.mulVec, Vec4.scale, Vec4.add, vec3of,
      get_aabb_corners_world, Transform.get_transform_matrix,
      AxisAlignedBoundingBox.get_corners, Vec3.scale, Vec3.add, stdMin, stdMax, stdClamp,
      FP.lt, FP.mul, FP.add, FP.div, FP.sub, FP.neg, FP.isFinite, half, fltMax, fltLowest,
      sentinelBounds, matId, defaultTransform, camW0, projW0, tId, box111,
      List.foldl, List.map, List.mem_cons]

/-- C2 amended: the pixel space path performs no finiteness exclusion; a
non finite projected corner is folded into the min max reduction.  In
particular any corner whose projected screen x is positive infinity forces
the clamped max x of the pixel bounding box to the full screen width. -/
theorem c2_infinite_corner_folded (cam : Camera) (sw sh : ℕ)
    (box : AxisAlignedBoundingBox) (t : Transform)
    (h : ∃ c ∈ get_aabb_corners_world box t, (project_to_screen cam sw sh c).x = FP.pinf) :
    (compute_pixel_bounding_box cam sw sh box t).max.x = .fin (sw : ℚ) := by
  have hmax := foldl_pixel_mem_pinf cam sw sh (get_aabb_corners_world box t) sentinelBounds
      (by simp [sentinelBounds, fltLowest]) h
  show stdClamp ((get_aabb_corners_world box t).foldl (pixel_step cam sw sh)
      sentinelBounds).max_x (.fin 0) (.fin (sw : ℚ)) = .fin (sw : ℚ)
  rw [hmax]
  simp [stdClamp, FP.lt]

/-- C2 witness: the folded infinite corner of the counterexample setup
drives the clamped max x to the screen width. -/
theorem c2_infinite_corner_folded_witness :
    (compute_pixel_bounding_box camW0 100 100 box111 tId).max.x = .fin ((100 : ℕ) : ℚ) :=
  c2_infinite_corner_folded camW0 100 100 box111 tId
    ⟨⟨.fin 1, .fin 1, .fin 1⟩,
     by norm_num [get_aabb_corners_world, Transform.get_transform_matrix,
       AxisAlignedBoundingBox.get_corners, Vec3.scale, Vec3.add, vec3of, FP.mul, FP.add,
       matId, defaultTransform, tId, box111, List.map, List.mem_cons],
     by norm_num [project_to_screen, clip_of, Camera.get_view_matrix,
       Camera.get_projection_matrix, Mat4.mul, Mat4.mulVec, Vec4.scale, Vec4.add,
       FP.mul, FP.add, FP.div, FP.sub, FP.neg, half, matId, projW0, camW0]⟩

/-- C3 counterexample: a one point object under an all NaN view matrix has
all 8 corners skipped as non finite, yet make_screen_space_ivp does not
return the empty quad: it emits the quad built from the sentinel values. -/
theorem c3_counterexample_sentinel_quad :
    ((get_aabb_corners_world (aabbFromPoints objC3.xyz_positions) objC3.transform).all
      (fun c => !((project_to_ndc camNaN c).x.mul (aspect_of 100 100)).isFinite
        || !(project_to_ndc camNaN c).y.isFinite) = true) ∧
    make_screen_space_ivp camNaN 100 100 objC3 ≠ emptyIVP := by
  refine ⟨?_, ?_⟩
  · norm_num [ndc_step, aspect_of, project_to_ndc,
      clip_of, Camera.get_view_matrix, Camera.get_projection_matrix, Mat4.mul, Mat4.mulVec,
      Vec4.scale, Vec4.add, vec3of, get_aabb_corners_world, Transform.get_transform_matrix,
      AxisAlignedBoundingBox.get_corners, aabbFromPoints, Vec3.scale, Vec3.add, stdMin,
      stdMax, FP.lt, FP.mul, FP.add, FP.div, FP.sub, FP.neg, FP.feq, FP.isFinite, half,
      fltMax, fltLowest, matId, matNaN, nanVec4, camNaN, tId, objC3,
      defaultTransform, List.foldl, List.map, List.all]
  · norm_num [make_screen_space_ivp, quad_from_bounds, ndc_step, aspect_of, project_to_ndc,
      clip_of, Camera.get_view_matrix, Camera.get_projection_matrix, Mat4.mul, Mat4.mulVec,
      Vec4.scale, Vec4.add, vec3of, get_aabb_corners_world, Transform.get_transform_matrix,
      AxisAlignedBoundingBox.get_corners, aabbFromPoints, Vec3.scale, Vec3.add, stdMin,
      stdMax, FP.lt, FP.mul, FP.add, FP.div, FP.sub, FP.neg, FP.feq, FP.isFinite, half,
      fltMax, fltLowest, sentinelBounds, matId, matNaN, nanVec4, camNaN, tId, objC3,
      defaultTransform, emptyIVP, List.foldl, List.map, List.isEmpty, List.all]
    simp

/-- C3 amended: when the input is non empty and all 8 corners are skipped
as non finite, make_screen_space_ivp returns the quad whose vertices carry
the one sidedly clamped sentinel values FLT_MAX and FLT_LOWEST, a result
distinct from the empty quad of the empty input case. -/
theorem c3_all_skipped_keeps_sentinels (cam : Camera) (sw sh : ℕ) (obj : PointsObj)
    (h1 : obj.xyz_positions ≠ [])
    (h2 : (get_aabb_corners_world (aabbFromPoints obj.xyz_positions) obj.transform).all
        (fun c => !((project_to_ndc cam c).x.mul (aspect_of sw sh)).isFinite
          || !(project_to_ndc cam c).y.isFinite) = true) :
    make_screen_space_ivp cam sw sh obj =
      ⟨[⟨fltMax, fltMax, .fin 0⟩, ⟨fltLowest, fltMax, .fin 0⟩,
        ⟨fltLowest, fltLowest, .fin 0⟩, ⟨fltMax, fltLowest, .fin 0⟩],
       [0, 1, 2, 2, 3, 0], defaultTransform⟩ ∧
    make_screen_space_ivp cam sw sh obj ≠ emptyIVP := by
  have hne : obj.xyz_positions.isEmpty = false := by
    cases hx : obj.xyz_positions with
    | nil => exact absurd hx h1
    | cons a l => rfl
  have hq : make_screen_space_ivp cam sw sh obj =
      ⟨[⟨fltMax, fltMax, .fin 0⟩, ⟨fltLowest, fltMax, .fin 0⟩,
        ⟨fltLowest, fltLowest, .fin 0⟩, ⟨fltMax, fltLowest, .fin 0⟩],
       [0, 1, 2, 2, 3, 0], defaultTransform⟩ := by
    unfold make_screen_space_ivp
    rw [hne]
    simp only [Bool.false_eq_true, if_false]
    rw [foldl_ndc_skip cam (aspect_of sw sh) _ sentinelBounds h2]
    exact quad_from_bounds_sentinel sw sh
  refine ⟨hq, ?_⟩
  rw [hq]
  simp [emptyIVP]

/-- C3 witness: the amended statement instantiated at the NaN view camera
and the one point object. -/
theorem c3_all_skipped_keeps_sentinels_witness :
    make_screen_space_ivp camNaN 100 100 objC3 =
      ⟨[⟨fltMax, fltMax, .fin 0⟩, ⟨fltLowest, fltMax, .fin 0⟩,
        ⟨fltLowest, fltLowest, .fin 0⟩, ⟨fltMax, fltLowest, .fin 0⟩],
       [0, 1, 2, 2, 3, 0], defaultTransform⟩ ∧
    make_screen_space_ivp camNaN 100 100 objC3 ≠ emptyIVP :=
  c3_all_skipped_keeps_sentinels camNaN 100 100 objC3 (by norm_num [objC3])
    (by norm_num [ndc_step, aspect_of, project_to_ndc,
      clip_of, Camera.get_view_matrix, Camera.get_projection_matrix, Mat4.mul, Mat4.mulVec,
      Vec4.scale, Vec4.add, vec3of, get_aabb_corners_world, Transform.get_transform_matrix,
      AxisAlignedBoundingBox.get_corners, aabbFromPoints, Vec3.scale, Vec3.add, stdMin,
      stdMax, FP.lt, FP.mul, FP.add, FP.div, FP.sub, FP.neg, FP.feq, FP.isFinite, half,
      fltMax, fltLowest, matId, matNaN, nanVec4, camNaN, tId, objC3,
      defaultTransform, List.foldl, List.map, List.all])

/-- C7 counterexample: a point object projecting right of the viewport
yields quad vertices with x = 2 although the aspect bound is 1: the emitted
x coordinates are not clamped into the interval from -aspect to aspect. -/
theorem c7_counterexample_unclamped_min :
    (make_screen_space_ivp camI 100 100 objC7).xyz_positions =
      [⟨.fin 2, .fin 0, .fin 0⟩, ⟨.fin 1, .fin 0, .fin 0⟩,
       ⟨.fin 1, .fin 0, .fin 0⟩, ⟨.fin 2, .fin 0, .fin 0⟩] ∧
    FP.lt (aspect_of 100 100) (.fin 2) = true := by
  constructor <;>
    norm_num [make_screen_space_ivp, quad_from_bounds, ndc_step, aspect_of, project_to_ndc,
      clip_of, Camera.get_view_matrix, Camera.get_projection_matrix, Mat4.mul, Mat4.mulVec,
      Vec4.scale, Vec4.add, vec3of, get_aabb_corners_world, Transform.get_transform_matrix,
      AxisAlignedBoundingBox.get_corners, aabbFromPoints, Vec3.scale, Vec3.add, stdMin,
      stdMax, FP.lt, FP.mul, FP.add, FP.div, FP.sub, FP.neg, FP.feq, FP.isFinite, half,
      fltMax, fltLowest, sentinelBounds, matId, defaultTransform, camI, tId, objC7,
      List.foldl, List.map, List.isEmpty]

/-- C7 amended: for every non empty input the quad has exactly the four
vertices (min_x, min_y, 0), (max_x, min_y, 0), (max_x, max_y, 0),
(min_x, max_y, 0), the index list 0 1 2 2 3 0 and the identity transform,
where min_x is clamped from below by -aspect only, max_x from above by
aspect only, min_y from below by -1 only and max_y from above by 1 only. -/
theorem c7_quad_shape_one_sided_clamp (cam : Camera) (sw sh : ℕ) (obj : PointsObj)
    (h : obj.xyz_positions ≠ []) :
    make_screen_space_ivp cam sw sh obj =
      (let b := (get_aabb_corners_world (aabbFromPoints obj.xyz_positions) obj.transform).foldl
          (ndc_step cam (aspect_of sw sh)) sentinelBounds
       ⟨[⟨stdMax b.min_x (aspect_of sw sh).neg, stdMax b.min_y (.fin (-1)), .fin 0⟩,
         ⟨stdMin b.max_x (aspect_of sw sh), stdMax b.min_y (.fin (-1)), .fin 0⟩,
         ⟨stdMin b.max_x (aspect_of sw sh), stdMin b.max_y (.fin 1), .fin 0⟩,
         ⟨stdMax b.min_x (aspect_of sw sh).neg, stdMin b.max_y (.fin 1), .fin 0⟩],
        [0, 1, 2, 2, 3, 0], defaultTransform⟩) := by
  obtain ⟨ps, t⟩ := obj
  cases ps with
  | nil => exact absurd rfl h
  | cons a l => rfl

/-- C7 witness: the amended statement instantiated at the off screen
object. -/
theorem c7_quad_shape_one_sided_clamp_witness :
    make_screen_space_ivp camI 100 100 objC7 =
      (let b := (get_aabb_corners_world (aabbFromPoints objC7.xyz_positions) objC7.transform).foldl
          (ndc_step camI (aspect_of 100 100)) sentinelBounds
       ⟨[⟨stdMax b.min_x (aspect_of 100 100).neg, stdMax b.min_y (.fin (-1)), .fin 0⟩,
         ⟨stdMin b.max_x (aspect_of 100 100), stdMax b.min_y (.fin (-1)), .fin 0⟩,
         ⟨stdMin b.max_x (aspect_of 100 100), stdMin b.max_y (.fin 1), .fin 0⟩,
         ⟨stdMax b.min_x (aspect_of 100 100).neg, stdMin b.max_y (.fin 1), .fin 0⟩],
        [0, 1, 2, 2, 3, 0], defaultTransform⟩) :=
  c7_quad_shape_one_sided_clamp camI 100 100 objC7 (by norm_num [objC7])

end ScreenSpaceSizer
